import Mathlib

/-!
Verification of the sentence-drill playback engine of the
Blur-Intensive-Listening-Practice repository.

The definitions below are a shallow embedding of the engine code in
`src/components/BlurReader.tsx` (boundary scheduler `check`, simulation
transport `startSimulation`, `skipToSegment`, `handleSegmentClick`, the
scroll-sync effect, `togglePlay`, `toggleRecording`, `handleExport`) and,
for the segment-buffer extraction, of the "Extract Active Segment Buffer"
effect in `src/unnamed/part_000`.  Times and sample values are modelled as
exact rationals; JS `Number.POSITIVE_INFINITY` in the loop target is
modelled by a dedicated constructor.
-/

namespace BlurListen

/-- A timed transcript segment (`Segment` in `types.ts`). -/
structure Segment where
  id : String
  text : String
  startTime : ℚ
  endTime : ℚ
deriving DecidableEq

/-- `'article' | 'sentence'` play mode. -/
inductive PlayMode where
  | article
  | sentence
deriving DecidableEq

/-- `LoopMode = 1 | 2 | 3 | Number.POSITIVE_INFINITY`.  `finite n` models the
numeric values, `unbounded` models positive infinity. -/
inductive LoopMode where
  | finite (n : ℕ)
  | unbounded
deriving DecidableEq

/-- The JS comparison `currentPlayCountRef.current < loopCount - 1`
(BlurReader.tsx line 105).  For a finite target the `- 1` is ordinary
subtraction on values ≥ 1; anything is below `∞ - 1 = ∞`. -/
def LoopMode.canReplay : LoopMode → ℕ → Bool
  | .finite n, c => decide (c < n - 1)
  | .unbounded, _ => true

/-- JS array indexing `material.segments[i]`: `undefined` (`none`) for a
negative or out-of-range index. -/
def segAt (segments : List Segment) (i : Int) : Option Segment :=
  if 0 ≤ i then segments.get? i.toNat else none

/-- The mutable state read and written by the per-frame `check` callback:
the audio element's clock, the `isPlaying` flag and the
`currentPlayCountRef` counter. -/
structure CheckState where
  currentTime : ℚ
  isPlaying : Bool
  playCount : ℕ
deriving DecidableEq

/-- One tick of the high-precision scheduler loop (BlurReader.tsx lines
90-122).  The `requestAnimationFrame` loop is installed only while
`isPlaying` is true, hence the outer guard; the body acts only in sentence
mode with an active segment, and only once `t ≥ seg.endTime - 0.05`:
below the loop target it reseeks to `seg.startTime` and bumps the counter,
otherwise it pauses and clamps the clock to `seg.endTime - 0.01`. -/
def checkTick (segments : List Segment) (playMode : PlayMode) (loopCount : LoopMode)
    (activeIndex : Int) (s : CheckState) : CheckState :=
  if s.isPlaying then
    if playMode = PlayMode.sentence ∧ activeIndex ≠ -1 then
      match segAt segments activeIndex with
      | some currentSeg =>
        if s.currentTime ≥ currentSeg.endTime - 5/100 then
          if loopCount.canReplay s.playCount then
            { s with playCount := s.playCount + 1, currentTime := currentSeg.startTime }
          else
            { s with isPlaying := false, currentTime := currentSeg.endTime - 1/100 }
        else s
      | none => s
    else s
  else s

/-- A boundary crossing: the clock, driven by the playing audio, reaches
time `t` and the scheduler tick fires on the resulting state. -/
def boundaryCross (segments : List Segment) (loopCount : LoopMode) (activeIndex : Int)
    (t : ℚ) (s : CheckState) : CheckState :=
  checkTick segments PlayMode.sentence loopCount activeIndex { s with currentTime := t }

/-- `n` consecutive boundary crossings of the active segment, the clock
arriving exactly at the segment's `endTime` each time. -/
def crossAtEnd (segments : List Segment) (loopCount : LoopMode) (i : Int)
    (s : CheckState) : CheckState :=
  match segAt segments i with
  | some seg => boundaryCross segments loopCount i seg.endTime s
  | none => s

/-- Direction argument of `skipToSegment`. -/
inductive SkipDir where
  | prev
  | next
deriving DecidableEq

/-- The observable outcome of `skipToSegment`: the clamped target index, the
seek target time (`segments[targetIndex]?.startTime ?? 0`), the reset play
counter and the `isPlaying` flag (both branches of the function end in
`setIsPlaying(true)`). -/
structure SkipResult where
  targetIndex : Int
  targetTime : ℚ
  playCount : ℕ
  isPlaying : Bool
deriving DecidableEq

/-- `skipToSegment` (BlurReader.tsx lines 213-247).  For `'prev'`, if more
than 2 seconds have elapsed inside the current segment the target is the
segment itself, otherwise the one before it; for `'next'` it is the next
index.  The raw index is then clamped to `[0, segments.length - 1]`, the
loop counter is reset and playback (re)starts at the target's start time. -/
def skipToSegment (segments : List Segment) (activeIndex : Int) (currentTime : ℚ)
    (dir : SkipDir) : SkipResult :=
  let raw : Int :=
    match dir with
    | .prev =>
      match segAt segments activeIndex with
      | some currentSeg =>
        if currentTime - currentSeg.startTime > 2 then activeIndex else activeIndex - 1
      | none => activeIndex - 1
    | .next => activeIndex + 1
  let clampedLow : Int := if raw < 0 then 0 else raw
  let target : Int :=
    if clampedLow ≥ (segments.length : Int) then (segments.length : Int) - 1 else clampedLow
  { targetIndex := target
    targetTime := ((segAt segments target).map Segment.startTime).getD 0
    playCount := 0
    isPlaying := true }

/-- The observable outcome of `handleSegmentClick`. -/
structure ClickResult where
  playCount : ℕ
  currentTime : ℚ
  isPlaying : Bool
  activeIndex : Int
deriving DecidableEq

/-- `handleSegmentClick` (BlurReader.tsx lines 257-271): resets the loop
counter, seeks to the clicked segment's start and plays.  With a real audio
element the active index is set from `findIndex` on the id (left unchanged
when not found, mirroring the `idx !== -1` guard); in simulation mode the
active index is left to the scroll-sync effect. -/
def handleSegmentClick (segments : List Segment) (hasAudio : Bool) (activeIndex : Int)
    (seg : Segment) : ClickResult :=
  let idx : Int := ((segments.findIdx? (fun s => s.id == seg.id)).map
    (fun n => (n : Int))).getD (-1)
  let newActive : Int := if idx ≠ (-1 : Int) then idx else activeIndex
  if hasAudio then
    { playCount := 0, currentTime := seg.startTime, isPlaying := true
      activeIndex := newActive }
  else
    { playCount := 0, currentTime := seg.startTime, isPlaying := true
      activeIndex := activeIndex }

/-- `material.segments.findIndex(seg => currentTime >= seg.startTime &&
currentTime < seg.endTime)` from the scroll-sync effect, with JS's `-1` for
"not found". -/
def findActiveIndex (segments : List Segment) (t : ℚ) : Int :=
  match segments.findIdx? (fun seg => decide (seg.startTime ≤ t) && decide (t < seg.endTime)) with
  | some n => (n : Int)
  | none => -1

/-- The state touched by the scroll-sync effect: `lastActiveIndexRef`,
`activeIndex` and `currentPlayCountRef`. -/
structure SyncState where
  lastActiveIndex : Int
  activeIndex : Int
  playCount : ℕ
deriving DecidableEq

/-- The scroll-sync / active-index effect (BlurReader.tsx lines 274-295):
when the clock has drifted into a different segment the active index is
updated and the loop counter reset; with no containing segment and no
active segment yet, the first segment becomes active. -/
def scrollSync (segments : List Segment) (t : ℚ) (s : SyncState) : SyncState :=
  let idx := findActiveIndex segments t
  if idx ≠ -1 ∧ idx ≠ s.lastActiveIndex then
    { lastActiveIndex := idx, activeIndex := idx, playCount := 0 }
  else if idx = -1 ∧ s.activeIndex = -1 ∧ 0 < segments.length then
    { s with lastActiveIndex := 0, activeIndex := 0 }
  else s

/-- A recorded clip; the byte contents are irrelevant to the export order,
so clips are modelled as opaque tokens. -/
abbrev Blob := ℕ

/-- `userRecordings : Record<string, Blob>` — lookup by segment id. -/
abbrev RecordingStore := String → Option Blob

/-- The selection loop of `handleExport` (BlurReader.tsx lines 372-380):
walk the transcript's segments in order and keep the recorded clips. -/
def exportOrderedBlobs (segments : List Segment) (store : RecordingStore) : List Blob :=
  segments.filterMap (fun seg => store seg.id)

/-- One `setUserRecordings(prev => ({ ...prev, [id]: blob }))` update. -/
def recordStoreInsert (store : RecordingStore) (segId : String) (b : Blob) : RecordingStore :=
  fun k => if k = segId then some b else store k

/-- The store produced by a wall-clock-ordered sequence of recording
events, starting from the empty store. -/
def recordStoreOfEvents (events : List (String × Blob)) : RecordingStore :=
  events.foldl (fun store e => recordStoreInsert store e.1 e.2) (fun _ => none)

/-- Outcome of `handleExport`: the error path (`alert` + early return, no
file produced) or a merged output. -/
inductive ExportOutcome (α : Type) where
  | exportError
  | exported (merged : α)
deriving DecidableEq

/-- `handleExport` (BlurReader.tsx lines 371-403): collect the recorded
clips in transcript order; with none (`hasRecordings` stays false) report
the error and return before `mergeAudioBlobs` is ever invoked, otherwise
hand the ordered clips to the merge step.  The merge itself lives in
`utils/audioUtils.ts` and is abstracted as the parameter `merge`. -/
def handleExport {α : Type} (merge : List Blob → α) (segments : List Segment)
    (store : RecordingStore) : ExportOutcome α :=
  let orderedBlobs := exportOrderedBlobs segments store
  if orderedBlobs.isEmpty then ExportOutcome.exportError
  else ExportOutcome.exported (merge orderedBlobs)

/-- A decoded audio buffer: sample rate, frame count (`buffer.length`) and
channel-major sample data. -/
structure AudioBuf where
  sampleRate : ℚ
  length : ℕ
  channels : List (List ℚ)
deriving DecidableEq

/-- `Math.floor(segment.startTime * sampleRate)` (part_000 line 150). -/
def startSampleOf (src : AudioBuf) (seg : Segment) : Int :=
  ⌊seg.startTime * src.sampleRate⌋

/-- `Math.floor(segment.endTime * sampleRate)` (part_000 line 151). -/
def endSampleOf (src : AudioBuf) (seg : Segment) : Int :=
  ⌊seg.endTime * src.sampleRate⌋

/-- The "Extract Active Segment Buffer" effect (part_000 lines 142-177).
If `length ≤ 0` or `startSample` is at or past the end of the source
buffer, no buffer is produced (`setActiveSegmentBuffer(null)`).  Otherwise
a fresh zero-initialised buffer of `length` frames is created and each
channel's `subarray(startSample, endSample)` slice is copied in; when the
slice reaches past the end of the channel data the zero tail of the fresh
buffer remains. -/
def extractSegmentBuffer (src : AudioBuf) (seg : Segment) : Option AudioBuf :=
  let startSample := startSampleOf src seg
  let endSample := endSampleOf src seg
  let len : Int := endSample - startSample
  if len ≤ 0 ∨ startSample ≥ (src.length : Int) then none
  else
    some { sampleRate := src.sampleRate
           length := len.toNat
           channels := src.channels.map (fun chanData =>
             let slice := (chanData.drop startSample.toNat).take len.toNat
             slice ++ List.replicate (len.toNat - slice.length) 0) }

/-- The player flags and refs read by `togglePlay` and `toggleRecording`. -/
structure PlayerState where
  isPlaying : Bool
  isUserPlaying : Bool
  isRecording : Bool
  currentTime : ℚ
  activeIndex : Int
  playCount : ℕ
deriving DecidableEq

/-- `togglePlay` (BlurReader.tsx lines 168-204): stop any playing user
recording; then either pause, or — when resuming in sentence mode at the
clamped end of the active segment (`t ≥ endTime - 0.1`) — reset the loop
counter, jump back to the segment start, and play.  The no-audio branch
toggles the simulation clock.  Note that `isRecording` is not consulted. -/
def togglePlay (hasAudio : Bool) (segments : List Segment) (playMode : PlayMode)
    (s : PlayerState) : PlayerState :=
  let s1 := if s.isUserPlaying then { s with isUserPlaying := false } else s
  if hasAudio then
    if s1.isPlaying then { s1 with isPlaying := false }
    else
      let s2 :=
        if playMode = PlayMode.sentence ∧ s1.activeIndex ≠ -1 then
          match segAt segments s1.activeIndex with
          | some currentSeg =>
            if s1.currentTime ≥ currentSeg.endTime - 1/10 then
              { s1 with playCount := 0, currentTime := currentSeg.startTime }
            else s1
          | none => s1
        else s1
      { s2 with isPlaying := true }
  else
    if s1.isPlaying then { s1 with isPlaying := false }
    else { s1 with isPlaying := true }

/-- `toggleRecording` (BlurReader.tsx lines 306-337): a no-op with no
active segment; stops an open recording session; otherwise first pauses
playback via `togglePlay` when playing, then asks for the microphone —
`micGranted` models the `getUserMedia` outcome — and only on success marks
the capture session open. -/
def toggleRecording (hasAudio : Bool) (segments : List Segment) (playMode : PlayMode)
    (micGranted : Bool) (s : PlayerState) : PlayerState :=
  if s.activeIndex = -1 then s
  else if s.isRecording then { s with isRecording := false }
  else
    let s1 := if s.isPlaying then togglePlay hasAudio segments playMode s else s
    if micGranted then { s1 with isRecording := true } else s1

/-- The action taken by one 100 ms tick of the simulated transport. -/
inductive SimStep where
  | replay (restartAt : ℚ) (newPlayCount : ℕ)
  | autoPause (pausedAt : ℚ)
  | endOfTrack
  | advance (t : ℚ)
deriving DecidableEq

/-- `material.segments.find(s => newTime >= s.startTime && newTime <=
s.endTime)` from the simulation tick (note the inclusive upper bound). -/
def simFindSeg (segments : List Segment) (t : ℚ) : Option Segment :=
  segments.find? (fun seg => decide (seg.startTime ≤ t) && decide (t ≤ seg.endTime))

/-- One tick of `startSimulation`'s interval callback (BlurReader.tsx
lines 135-163).  In sentence mode, once the simulated clock reaches the
containing segment's `endTime`: below the loop target the simulation
restarts at `seg.startTime` with the counter bumped, otherwise it stops
and parks the clock at `seg.startTime`.  Only when neither fires does the
end-of-track check and the plain clock advance run. -/
def simTick (segments : List Segment) (playMode : PlayMode) (loopCount : LoopMode)
    (duration : ℚ) (playCount : ℕ) (newTime : ℚ) : SimStep :=
  let sentencePart : Option SimStep :=
    if playMode = PlayMode.sentence then
      match simFindSeg segments newTime with
      | some currentSeg =>
        if newTime ≥ currentSeg.endTime then
          if loopCount.canReplay playCount then
            some (SimStep.replay currentSeg.startTime (playCount + 1))
          else
            some (SimStep.autoPause currentSeg.startTime)
        else none
      | none => none
    else none
  match sentencePart with
  | some step => step
  | none =>
    if newTime ≥ duration ∧ 0 < duration then SimStep.endOfTrack
    else SimStep.advance newTime

/-! ### Concrete fixtures used by witnesses and counterexamples -/

/-- Two contiguous four-second segments. -/
def segsTwo : List Segment := [⟨"s0", "first", 0, 4⟩, ⟨"s1", "second", 4, 8⟩]

/-- The five-segment transcript of the export example. -/
def segsFive : List Segment :=
  [⟨"s1", "one", 0, 1⟩, ⟨"s2", "two", 1, 2⟩, ⟨"s3", "three", 2, 3⟩,
   ⟨"s4", "four", 3, 4⟩, ⟨"s5", "five", 4, 5⟩]

/-- A 48000 Hz mono source track of 96000 frames (2 s). -/
def srcBuf48k : AudioBuf := ⟨48000, 96000, [List.replicate 96000 0]⟩

/-- The `[1.0s, 2.0s)` segment of the extraction example. -/
def segOneToTwo : Segment := ⟨"seg12", "x", 1, 2⟩

/-! ### Theorems -/

/-- C1.  In sentence mode with `loopTarget = 3` and the loop counter at 0,
the first two boundary crossings of the active segment replay it (the
engine stays playing), the third crossing sets `isPlaying` to false, and
the scheduler takes no further action on the resulting paused state: no
further automatic replay occurs. -/
theorem drill_three_loops_then_pause
    (segments : List Segment) (i : Int) (seg : Segment)
    (hseg : segAt segments i = some seg) (hi : i ≠ -1)
    (t1 t2 t3 : ℚ)
    (h1 : t1 ≥ seg.endTime - 5/100) (h2 : t2 ≥ seg.endTime - 5/100)
    (h3 : t3 ≥ seg.endTime - 5/100)
    (s0 : CheckState) (hplay : s0.isPlaying = true) (hcount : s0.playCount = 0) :
    (boundaryCross segments (LoopMode.finite 3) i t1 s0).isPlaying = true ∧
    (boundaryCross segments (LoopMode.finite 3) i t2
      (boundaryCross segments (LoopMode.finite 3) i t1 s0)).isPlaying = true ∧
    (boundaryCross segments (LoopMode.finite 3) i t3
      (boundaryCross segments (LoopMode.finite 3) i t2
        (boundaryCross segments (LoopMode.finite 3) i t1 s0))).isPlaying = false ∧
    checkTick segments PlayMode.sentence (LoopMode.finite 3) i
      (boundaryCross segments (LoopMode.finite 3) i t3
        (boundaryCross segments (LoopMode.finite 3) i t2
          (boundaryCross segments (LoopMode.finite 3) i t1 s0))) =
      (boundaryCross segments (LoopMode.finite 3) i t3
        (boundaryCross segments (LoopMode.finite 3) i t2
          (boundaryCross segments (LoopMode.finite 3) i t1 s0))) := by
  simp only [boundaryCross, checkTick, hseg, hplay, hcount, hi, h1, h2, h3,
    LoopMode.canReplay]
  norm_num [hi, h1, h2, h3]

/-- Witness for C1: the first segment of `segsTwo`, starting paused-free at
count 0, is paused after its third boundary crossing. -/
theorem drill_three_loops_then_pause_witness :
    (boundaryCross segsTwo (LoopMode.finite 3) 0 4
      (boundaryCross segsTwo (LoopMode.finite 3) 0 4
        (boundaryCross segsTwo (LoopMode.finite 3) 0 4 ⟨0, true, 0⟩))).isPlaying = false :=
  (drill_three_loops_then_pause segsTwo 0 ⟨"s0", "first", 0, 4⟩ rfl (by decide)
    4 4 4 (by norm_num) (by norm_num) (by norm_num) ⟨0, true, 0⟩ rfl rfl).2.2.1

/-- C3.  With `loopTarget = unbounded` every boundary crossing replays the
active segment: after any number of crossings (in particular 10) the
engine is still playing, the counter has increased by the number of
crossings, and the clock is back at the segment's start. -/
theorem unbounded_never_pauses
    (segments : List Segment) (i : Int) (seg : Segment)
    (hseg : segAt segments i = some seg) (hi : i ≠ -1)
    (s0 : CheckState) (hplay : s0.isPlaying = true) :
    ∀ n : ℕ,
      ((crossAtEnd segments LoopMode.unbounded i)^[n] s0).isPlaying = true ∧
      ((crossAtEnd segments LoopMode.unbounded i)^[n] s0).playCount = s0.playCount + n ∧
      (1 ≤ n → ((crossAtEnd segments LoopMode.unbounded i)^[n] s0).currentTime
        = seg.startTime) := by
  intro n
  induction n with
  | zero =>
    refine ⟨hplay, by simp, ?_⟩
    intro h
    exact absurd h (by omega)
  | succ n ih =>
    obtain ⟨hp, hc, _⟩ := ih
    rw [Function.iterate_succ_apply']
    have hb : seg.endTime ≥ seg.endTime - 5/100 := by linarith
    simp only [crossAtEnd, hseg, boundaryCross, checkTick, hp, hi,
      LoopMode.canReplay, hb]
    norm_num [hp, hc, hi, hb]
    omega

/-- Witness for C3: ten simulated crossings of the first segment of
`segsTwo` leave the engine playing at the segment start with counter 10. -/
theorem unbounded_never_pauses_witness :
    ((crossAtEnd segsTwo LoopMode.unbounded 0)^[10] ⟨0, true, 0⟩).isPlaying = true ∧
    ((crossAtEnd segsTwo LoopMode.unbounded 0)^[10] ⟨0, true, 0⟩).playCount = 10 ∧
    ((crossAtEnd segsTwo LoopMode.unbounded 0)^[10] ⟨0, true, 0⟩).currentTime = 0 :=
  let h := unbounded_never_pauses segsTwo 0 ⟨"s0", "first", 0, 4⟩ rfl (by decide)
    ⟨0, true, 0⟩ rfl 10
  ⟨h.1, h.2.1, h.2.2 (by omega)⟩

/-- C2 counterexample.  For a degenerate active segment of duration 0.005 s
(`[1/2, 101/200)`), the auto-pause clamp `endTime - 0.01` lands strictly
before the segment's `startTime`, so the clock position after the
scheduler's action is not within `[startTime, endTime)` as the claim
requires. -/
theorem boundary_clamp_counterexample :
    (checkTick [⟨"tiny", "t", 1/2, 101/200⟩] PlayMode.sentence (LoopMode.finite 1) 0
      ⟨101/200, true, 0⟩).currentTime
      < (⟨"tiny", "t", 1/2, 101/200⟩ : Segment).startTime := by
  norm_num [checkTick, segAt, LoopMode.canReplay]

/-- C2 (amended).  Once a boundary is detected, the clock position after
the scheduler's action never reaches `seg.endTime` (it cannot advance into
the next segment's range), and whenever the segment is at least 0.01 s
long the position lies within `[seg.startTime, seg.endTime)`. -/
theorem boundary_action_stays_in_segment
    (segments : List Segment) (i : Int) (seg : Segment)
    (hseg : segAt segments i = some seg) (hi : i ≠ -1)
    (lc : LoopMode) (s : CheckState) (hplay : s.isPlaying = true)
    (hvalid : seg.startTime < seg.endTime)
    (hb : s.currentTime ≥ seg.endTime - 5/100) :
    (checkTick segments PlayMode.sentence lc i s).currentTime < seg.endTime ∧
    (1/100 ≤ seg.endTime - seg.startTime →
      seg.startTime ≤ (checkTick segments PlayMode.sentence lc i s).currentTime) := by
  simp only [checkTick, hplay, hseg, hi, hb]
  norm_num [hi, hb]
  cases h : lc.canReplay s.playCount
  · simp [h]
    intro h2
    linarith
  · simp [h]
    exact hvalid

/-- Witness for the amended C2 on the first segment of `segsTwo` at its
boundary. -/
theorem boundary_action_stays_in_segment_witness :
    (checkTick segsTwo PlayMode.sentence (LoopMode.finite 1) 0 ⟨4, true, 0⟩).currentTime
        < (4 : ℚ) ∧
    ((1 : ℚ)/100 ≤ 4 - 0 →
      (0 : ℚ) ≤ (checkTick segsTwo PlayMode.sentence (LoopMode.finite 1) 0
        ⟨4, true, 0⟩).currentTime) :=
  boundary_action_stays_in_segment segsTwo 0 ⟨"s0", "first", 0, 4⟩ rfl (by decide)
    (LoopMode.finite 1) ⟨4, true, 0⟩ rfl (by norm_num) (by norm_num)

/-- C4 counterexample.  On `segsTwo` with segment 1 active: at elapsed
0.5 s (`currentTime = 9/2`) `skipToSegment('prev')` targets segment 0, not
the same segment as the claim states; at elapsed 3 s (`currentTime = 7`)
it targets segment 1 again, not the previous one.  The claim has the
dead-zone behaviour backwards. -/
theorem skip_prev_deadzone_counterexample :
    (skipToSegment segsTwo 1 (9/2) SkipDir.prev).targetIndex ≠ 1 ∧
    (skipToSegment segsTwo 1 7 SkipDir.prev).targetIndex ≠ 0 := by
  constructor <;> norm_num [skipToSegment, segAt, segsTwo]

/-- C4 (amended).  `skipToSegment('prev')` with an active segment moves to
the previous segment when at most 2 s have elapsed since the segment's
start (the dead-zone), and restarts the current segment when more than 2 s
have elapsed; either way the loop counter is reset and playback resumes. -/
theorem skip_prev_deadzone
    (segments : List Segment) (i : Int) (seg : Segment)
    (hseg : segAt segments i = some seg) (hpos : 1 ≤ i)
    (hlen : i < (segments.length : Int)) (ct : ℚ) :
    (ct - seg.startTime ≤ 2 →
      (skipToSegment segments i ct SkipDir.prev).targetIndex = i - 1) ∧
    (ct - seg.startTime > 2 →
      (skipToSegment segments i ct SkipDir.prev).targetIndex = i) ∧
    (skipToSegment segments i ct SkipDir.prev).playCount = 0 ∧
    (skipToSegment segments i ct SkipDir.prev).isPlaying = true := by
  refine ⟨?_, ?_, by simp [skipToSegment], by simp [skipToSegment]⟩
  · intro h
    have hnot : ¬ (ct - seg.startTime > 2) := by linarith
    simp only [skipToSegment, hseg, if_neg hnot]
    have h1 : ¬ (i - 1 < 0) := by omega
    have h2 : ¬ (i - 1 ≥ (segments.length : Int)) := by omega
    simp [h1, h2]
  · intro h
    simp only [skipToSegment, hseg, if_pos h]
    have h1 : ¬ (i < 0) := by omega
    have h2 : ¬ (i ≥ (segments.length : Int)) := by omega
    simp [h1, h2]

/-- Witness for the amended C4 on `segsTwo` with segment 1 active at
elapsed 0.5 s and at elapsed 3 s. -/
theorem skip_prev_deadzone_witness :
    (skipToSegment segsTwo 1 (9/2) SkipDir.prev).targetIndex = 0 ∧
    (skipToSegment segsTwo 1 7 SkipDir.prev).targetIndex = 1 :=
  have hA := skip_prev_deadzone segsTwo 1 ⟨"s1", "second", 4, 8⟩ rfl (by decide)
    (by decide) (9/2)
  have hB := skip_prev_deadzone segsTwo 1 ⟨"s1", "second", 4, 8⟩ rfl (by decide)
    (by decide) 7
  ⟨by simpa using hA.1 (by norm_num), hB.2.1 (by norm_num)⟩

/-- C5.  The per-segment loop counter is reset to 0 by every manual
navigation — `skipToSegment` in either direction and clicking a segment —
and by the scroll-sync effect whenever the clock has drifted into a
different segment than the last active one. -/
theorem loop_counter_resets :
    (∀ segments i ct dir, (skipToSegment segments i ct dir).playCount = 0) ∧
    (∀ segments hasAudio i seg, (handleSegmentClick segments hasAudio i seg).playCount = 0) ∧
    (∀ segments t st, findActiveIndex segments t ≠ -1 →
      findActiveIndex segments t ≠ st.lastActiveIndex →
      (scrollSync segments t st).playCount = 0) := by
  refine ⟨fun segments i ct dir => by simp [skipToSegment],
    fun segments hasAudio i seg => ?_,
    fun segments t st h1 h2 => ?_⟩
  · unfold handleSegmentClick
    cases hasAudio <;> simp
  · simp [scrollSync, h1, h2]

/-- Witness for C5: with the clock at 4.5 s inside `segsTwo` and the last
active index 0, the scroll-sync effect resets the counter from 2 to 0. -/
theorem loop_counter_resets_witness :
    (scrollSync segsTwo (9/2) ⟨0, 0, 2⟩).playCount = 0 :=
  loop_counter_resets.2.2 segsTwo (9/2) ⟨0, 0, 2⟩
    (by norm_num [findActiveIndex, segsTwo])
    (by norm_num [findActiveIndex, segsTwo])

/-- Helper: filtering to the elements on which `f` fires does not change a
`filterMap`. -/
theorem filterMap_filter_isSome {α β : Type} (f : α → Option β) :
    ∀ l : List α, (l.filter (fun a => (f a).isSome)).filterMap f = l.filterMap f := by
  intro l
  induction l with
  | nil => rfl
  | cons a l ih =>
    cases hfa : f a <;> simp [List.filter_cons, List.filterMap_cons, hfa, ih]

/-- C6.  Export selects exactly the segments holding a recorded clip, in
transcript order: the collected clip list equals the filter of the segment
list to recorded segments, and on the concrete `[s1..s5]` example the
recordings for `s2` and `s4` export as `[clip s2, clip s4]` in either
wall-clock recording order. -/
theorem export_selects_recorded_in_order :
    (∀ segments store, exportOrderedBlobs segments store =
      (segments.filter (fun seg => (store seg.id).isSome)).filterMap
        (fun seg => store seg.id)) ∧
    exportOrderedBlobs segsFive (recordStoreOfEvents [("s2", 2), ("s4", 4)]) = [2, 4] ∧
    exportOrderedBlobs segsFive (recordStoreOfEvents [("s4", 4), ("s2", 2)]) = [2, 4] := by
  refine ⟨fun segments store => ?_, ?_, ?_⟩
  · exact (filterMap_filter_isSome (fun seg => store seg.id) segments).symm
  · simp [exportOrderedBlobs, segsFive, recordStoreOfEvents, recordStoreInsert]
  · simp [exportOrderedBlobs, segsFive, recordStoreOfEvents, recordStoreInsert]

/-- C7.  When no segment has a recorded clip, `handleExport` takes the
error path: it reports the failure and returns before the merge step, so
no output is produced for any merge function. -/
theorem export_zero_recordings_fails {α : Type} (merge : List Blob → α)
    (segments : List Segment) (store : RecordingStore)
    (h : ∀ seg ∈ segments, store seg.id = none) :
    handleExport merge segments store = ExportOutcome.exportError := by
  have hnil : exportOrderedBlobs segments store = [] := by
    simp only [exportOrderedBlobs, List.filterMap_eq_nil_iff]
    exact h
  simp [handleExport, hnil]

/-- Witness for C7: the empty store over `segsFive` yields the export
error for the length-function stand-in merge. -/
theorem export_zero_recordings_fails_witness :
    handleExport List.length segsFive (fun _ => none) = ExportOutcome.exportError :=
  export_zero_recordings_fails List.length segsFive (fun _ => none)
    (fun _ _ => rfl)

/-- C8.  The segment-buffer extraction returns no buffer exactly under the
guard (`length ≤ 0` or `startSample` at or past the source length), and
otherwise a buffer whose every channel holds exactly
`endSample - startSample` samples. -/
theorem extract_segment_buffer_spec (src : AudioBuf) (seg : Segment) :
    ((endSampleOf src seg - startSampleOf src seg ≤ 0 ∨
        startSampleOf src seg ≥ (src.length : Int)) →
      extractSegmentBuffer src seg = none) ∧
    (0 < endSampleOf src seg - startSampleOf src seg →
      startSampleOf src seg < (src.length : Int) →
      ∃ buf, extractSegmentBuffer src seg = some buf ∧
        buf.length = (endSampleOf src seg - startSampleOf src seg).toNat ∧
        buf.channels.length = src.channels.length ∧
        ∀ ch ∈ buf.channels,
          ch.length = (endSampleOf src seg - startSampleOf src seg).toNat) := by
  constructor
  · intro hguard
    simp only [extractSegmentBuffer]
    rw [if_pos hguard]
  · intro hlen hstart
    have hguard : ¬ (endSampleOf src seg - startSampleOf src seg ≤ 0 ∨
        startSampleOf src seg ≥ (src.length : Int)) := by
      push_neg
      exact ⟨by omega, by omega⟩
    simp only [extractSegmentBuffer]
    rw [if_neg hguard]
    refine ⟨_, rfl, rfl, by simp, ?_⟩
    intro ch hch
    simp only [List.mem_map] at hch
    obtain ⟨chanData, _, rfl⟩ := hch
    simp only [List.length_append, List.length_take, List.length_replicate]
    omega

/-- Witness for C8: a `[1.0s, 2.0s)` segment of a 48000 Hz source yields a
buffer of exactly 48000 samples per channel. -/
theorem extract_segment_buffer_spec_witness :
    ∃ buf, extractSegmentBuffer srcBuf48k segOneToTwo = some buf ∧
      buf.length = 48000 ∧ ∀ ch ∈ buf.channels, ch.length = 48000 := by
  have hs : startSampleOf srcBuf48k segOneToTwo = 48000 := by
    norm_num [startSampleOf, srcBuf48k, segOneToTwo]
  have he : endSampleOf srcBuf48k segOneToTwo = 96000 := by
    norm_num [endSampleOf, srcBuf48k, segOneToTwo]
  obtain ⟨buf, hbuf, hlen, _, hch⟩ :=
    (extract_segment_buffer_spec srcBuf48k segOneToTwo).2
      (by rw [hs, he]; norm_num) (by rw [hs]; norm_num [srcBuf48k])
  refine ⟨buf, hbuf, ?_, ?_⟩
  · rw [hlen, hs, he]
    decide
  · intro ch hmem
    rw [hch ch hmem, hs, he]
    decide

/-- C9 counterexample.  From a playing state with segment 0 active,
starting a recording pauses playback, but a subsequent `togglePlay` starts
playback again without stopping the open recording: playback and
microphone recording are then active at the same time, so the exclusivity
half of the claim fails. -/
theorem play_during_recording_counterexample :
    (togglePlay true segsTwo PlayMode.article
      (toggleRecording true segsTwo PlayMode.article true
        ⟨true, false, false, 0, 0, 0⟩)).isPlaying = true ∧
    (togglePlay true segsTwo PlayMode.article
      (toggleRecording true segsTwo PlayMode.article true
        ⟨true, false, false, 0, 0, 0⟩)).isRecording = true := by
  constructor <;> norm_num [togglePlay, toggleRecording, segAt, segsTwo]

/-- C9 (amended).  Starting a recording (no session open, an active
segment selected) always leaves `isPlaying = false` — the pause happens
via `togglePlay` before the microphone is requested — and on a granted
microphone the capture session is open; but the converse direction is not
enforced: `togglePlay` during an open recording does not stop it. -/
theorem recording_start_pauses (hasAudio : Bool) (segments : List Segment)
    (playMode : PlayMode) (micGranted : Bool) (s : PlayerState)
    (hA : s.activeIndex ≠ -1) (hR : s.isRecording = false) :
    (toggleRecording hasAudio segments playMode micGranted s).isPlaying = false ∧
    (micGranted = true →
      (toggleRecording hasAudio segments playMode micGranted s).isRecording = true) := by
  unfold toggleRecording togglePlay
  cases hp : s.isPlaying <;>
    cases hu : s.isUserPlaying <;>
      cases hasAudio <;>
        cases micGranted <;>
          simp [hA, hR, hp, hu]

/-- Witness for the amended C9: a playing state with segment 0 active is
paused and capturing after `toggleRecording` with the microphone granted. -/
theorem recording_start_pauses_witness :
    (toggleRecording true segsTwo PlayMode.article true
      ⟨true, false, false, 0, 0, 0⟩).isPlaying = false ∧
    (toggleRecording true segsTwo PlayMode.article true
      ⟨true, false, false, 0, 0, 0⟩).isRecording = true :=
  have h := recording_start_pauses true segsTwo PlayMode.article true
    ⟨true, false, false, 0, 0, 0⟩ (by decide) rfl
  ⟨h.1, h.2 rfl⟩

/-- C10 counterexample.  For the segment `[1, 3)` with loop target 1, the
real-track scheduler's final automatic pause leaves the clock at
`endTime - 0.01 = 2.99`, while the simulated transport's final automatic
pause parks the clock at `startTime = 1`: the paused position is not the
same function of the segment in the two modes. -/
theorem sim_vs_real_pause_counterexample :
    (checkTick [⟨"c", "text", 1, 3⟩] PlayMode.sentence (LoopMode.finite 1) 0
      ⟨3, true, 0⟩).isPlaying = false ∧
    (checkTick [⟨"c", "text", 1, 3⟩] PlayMode.sentence (LoopMode.finite 1) 0
      ⟨3, true, 0⟩).currentTime = 299/100 ∧
    simTick [⟨"c", "text", 1, 3⟩] PlayMode.sentence (LoopMode.finite 1) 3 0 3
      = SimStep.autoPause 1 ∧
    (299/100 : ℚ) ≠ 1 := by
  refine ⟨?_, ?_, ?_, by norm_num⟩ <;>
    norm_num [checkTick, simTick, simFindSeg, segAt, LoopMode.canReplay]

/-- C10 (amended).  Both transports loop-replay by reseeking to
`seg.startTime` while the counter is below the loop target, and both stop
on the final crossing — but at different positions: the real-track
scheduler clamps the clock to `seg.endTime - 0.01`, the simulated
transport parks it at `seg.startTime`. -/
theorem transport_pause_positions (segments : List Segment) (i : Int) (seg : Segment)
    (hseg : segAt segments i = some seg) (hi : i ≠ -1) (lc : LoopMode)
    (s : CheckState) (hplay : s.isPlaying = true)
    (hb : s.currentTime ≥ seg.endTime - 5/100)
    (duration : ℚ) (pc : ℕ) (newTime : ℚ)
    (hfind : simFindSeg segments newTime = some seg) (hend : newTime ≥ seg.endTime) :
    (lc.canReplay s.playCount = true →
      (checkTick segments PlayMode.sentence lc i s).currentTime = seg.startTime ∧
      (checkTick segments PlayMode.sentence lc i s).isPlaying = true) ∧
    (lc.canReplay s.playCount = false →
      (checkTick segments PlayMode.sentence lc i s).currentTime = seg.endTime - 1/100 ∧
      (checkTick segments PlayMode.sentence lc i s).isPlaying = false) ∧
    (lc.canReplay pc = true →
      simTick segments PlayMode.sentence lc duration pc newTime
        = SimStep.replay seg.startTime (pc + 1)) ∧
    (lc.canReplay pc = false →
      simTick segments PlayMode.sentence lc duration pc newTime
        = SimStep.autoPause seg.startTime) := by
  refine ⟨fun hcr => ?_, fun hcr => ?_, fun hcr => ?_, fun hcr => ?_⟩ <;>
    simp [checkTick, simTick, hseg, hfind, hi, hb, hend, hplay, hcr]

/-- Witness for the amended C10 on the segment `[1, 3)`: with loop target
2 and the counter at 0 both transports replay from `startTime = 1`; with
the counter at the target the real transport pauses at `2.99` and the
simulated one at `1`. -/
theorem transport_pause_positions_witness :
    ((checkTick [⟨"c", "text", 1, 3⟩] PlayMode.sentence (LoopMode.finite 2) 0
        ⟨3, true, 0⟩).currentTime = 1 ∧
      (checkTick [⟨"c", "text", 1, 3⟩] PlayMode.sentence (LoopMode.finite 2) 0
        ⟨3, true, 0⟩).isPlaying = true) ∧
    simTick [⟨"c", "text", 1, 3⟩] PlayMode.sentence (LoopMode.finite 2) 3 0 3
      = SimStep.replay 1 1 ∧
    (checkTick [⟨"c", "text", 1, 3⟩] PlayMode.sentence (LoopMode.finite 2) 0
        ⟨3, true, 1⟩).currentTime = 3 - 1/100 ∧
    simTick [⟨"c", "text", 1, 3⟩] PlayMode.sentence (LoopMode.finite 2) 3 1 3
      = SimStep.autoPause 1 :=
  have hfind : simFindSeg [⟨"c", "text", 1, 3⟩] 3 = some ⟨"c", "text", 1, 3⟩ := by
    norm_num [simFindSeg]
  have h0 := transport_pause_positions [⟨"c", "text", 1, 3⟩] 0 ⟨"c", "text", 1, 3⟩
    rfl (by decide) (LoopMode.finite 2) ⟨3, true, 0⟩ rfl (by norm_num) 3 0 3
    hfind (by norm_num)
  have h1 := transport_pause_positions [⟨"c", "text", 1, 3⟩] 0 ⟨"c", "text", 1, 3⟩
    rfl (by decide) (LoopMode.finite 2) ⟨3, true, 1⟩ rfl (by norm_num) 3 1 3
    hfind (by norm_num)
  ⟨h0.1 (by decide), h0.2.2.1 (by decide),
    (h1.2.1 (by decide)).1, h1.2.2.2 (by decide)⟩

end BlurListen
